import Mathlib

/-!
Verification of the PyPlanning scheduling engine (planning/gantt.py).

Dates are modeled as integer day numbers.  Day 0 is 2024-01-01, which is a
Monday, so the weekday of day number d is d % 7 with 0 = Monday ... 6 = Sunday,
matching Python's datetime.date.weekday().  All date arithmetic in the source
is whole-day arithmetic (datetime.timedelta(days=n)), which becomes integer
addition here.  Python while-loops whose termination depends on the calendar
content are modeled with an explicit fuel parameter; running out of fuel
returns an error, exactly like the Python loop not terminating never returns.
A raised Python exception (TypeError on a comparison with None, ValueError,
IndexError, UnboundLocalError/AttributeError) is modeled as Except.error ().
-/

namespace PyPlanning

/-- Dates are plain Int day numbers (day 0 = 2024-01-01, a Monday); an
abbreviation is avoided on purpose so that arithmetic automation sees Int.
datetime.date.weekday() is 0 = Monday ... 6 = Sunday. -/
def weekday (d : Int) : Int := d % 7

/-- Concrete day numbers used by the scenarios (relative to 2024-01-01). -/
def date20240101 : Int := 0

def date20240102 : Int := 1

def date20240105 : Int := 4

def date20240315 : Int := 74

/-- datetime.date(9999, 1, 1), returned by Project.start_date on an empty
project (gantt.py line 2975): 3651695 - 738886 days after 2024-01-01. -/
def date99990101 : Int := 2912809

/-- datetime.date(1970, 1, 1), returned by Project.end_date on an empty
project (gantt.py line 2989). -/
def date19700101 : Int := -19723

/-- The process-wide calendar state of gantt.py: NOT_WORKED_DAYS
(line 172, default Saturday/Sunday) and the global VACATIONS list
(line 249, filled by add_vacations). -/
structure Calendar where
  notWorkedDays : List Int := [5, 6]
  vacations : List Int := []

/-- The calendar-only non-working test, as it appears textually at
gantt.py line 1127: day.weekday() in _not_worked_days() or day in VACATIONS. -/
def Calendar.isNonWorking (cal : Calendar) (day : Int) : Bool :=
  decide (weekday day ∈ cal.notWorkedDays) || decide (day ∈ cal.vacations)

/-- GroupOfResources (gantt.py line 326): only the fields read by
availability checks are kept (name, vacations as inclusive ranges). -/
structure GroupOfResources where
  name : String := ""
  vacations : List (Int × Int) := []

/-- Resource (gantt.py line 518).  The tasks back-reference is passed
explicitly to search_for_task_conflicts below instead of being stored,
to keep the structure non-recursive. -/
structure Resource where
  name : String := ""
  fullname : String := ""
  vacations : List (Int × Int) := []
  member_of_groups : List GroupOfResources := []

/-- Resource.is_available (gantt.py lines 573-617): global VACATIONS first,
then every vacation range of every group the resource belongs to, then the
resource's own vacation ranges. -/
def Resource.is_available (cal : Calendar) (r : Resource) (date : Int) : Bool :=
  if decide (date ∈ cal.vacations) then false
  else if r.member_of_groups.any
      (fun g => g.vacations.any (fun h => decide (h.1 ≤ date) && decide (date ≤ h.2))) then false
  else if r.vacations.any (fun h => decide (h.1 ≤ date) && decide (date ≤ h.2)) then false
  else true

/-- A dependency as seen from a depending task.  Task.start_date and
add_depends interact with a dependency object only through isinstance(t,
Milestone) and through calling t.end_date(); endResult records what that
call does: Except.error () if it raises, .ok none if it returns None,
.ok (some d) if it returns the date d. -/
structure Dep where
  isMilestone : Bool := false
  endResult : Except Unit (Option Int) := .error ()

/-- The value of the depends_on attribute: None, a genuine list, or - after
the add_depends bug modeled in add_depends below - a bare dependency object. -/
inductive DependsVal where
  | list (deps : List Dep)
  | single (dep : Dep)

/-- The argument passed to Task.__init__ or Task.add_depends for depends_on. -/
inductive DependsArg where
  | list (deps : List Dep)
  | single (dep : Dep)

/-- The input fields of a Task (gantt.py line 803).  isMilestone is true for
Milestone instances (subclass at line 1769), whose constructor forces
stop = start, duration = 0 and resources = None.  The cached fields
_cache_start_date/_cache_end_date live in TaskState below. -/
structure Task where
  name : String := ""
  fullname : String := ""
  start : Option Int := none
  stop : Option Int := none
  duration : Option Int := none
  dependsOn : Option DependsVal := none
  resources : Option (List Resource) := none
  isMilestone : Bool := false

/-- Task.__init__ normalization of the depends_on argument
(gantt.py lines 890-895): a list is stored as is, a single object is
wrapped in a list, None stays None. -/
def initDependsOn : Option DependsArg → Option DependsVal
  | some (.list l) => some (.list l)
  | some (.single d) => some (.list [d])
  | none => none

/-- Milestone.__init__ (gantt.py lines 1774-1828): stop = start,
duration = 0, resources = None. -/
def Milestone.init (name : String) (start : Option Int)
    (dependsOn : Option DependsArg) : Task :=
  { name := name, fullname := name, start := start, stop := start,
    duration := some 0, dependsOn := initDependsOn dependsOn,
    resources := none, isMilestone := true }

/-- Task.non_working_day (gantt.py lines 1122-1130): week-end or global
vacation, extended by the resource's own availability only when the task
has exactly one assigned resource. -/
def Task.non_working_day (cal : Calendar) (t : Task) (day : Int) : Bool :=
  let result := decide (weekday day ∈ cal.notWorkedDays) || decide (day ∈ cal.vacations)
  match t.resources with
  | some [r] => result || !(Resource.is_available cal r day)
  | _ => result

/-- Comparison date1 > date2 as Python executes it on possibly-None values:
comparing with None raises TypeError. -/
def pyGt : Option Int → Option Int → Except Unit Bool
  | some a, some b => .ok (decide (a > b))
  | _, _ => .error ()

/-- Comparison date1 < date2 with Python None semantics. -/
def pyLt : Option Int → Option Int → Except Unit Bool
  | some a, some b => .ok (decide (a < b))
  | _, _ => .error ()

/-- Comparison date1 <= date2 with Python None semantics. -/
def pyLe : Option Int → Option Int → Except Unit Bool
  | some a, some b => .ok (decide (a ≤ b))
  | _, _ => .error ()

/-- The forward advance loop "while self.non_working_day(start): start +=
1 day" (gantt.py lines 958-959, 974-975, 986-987, 1054-1055, 1095-1096),
with fuel. -/
def advanceOverNonWorking (cal : Calendar) (t : Task) : Nat → Int → Option Int
  | 0, _ => none
  | fuel + 1, day =>
    if t.non_working_day cal day then advanceOverNonWorking cal t fuel (day + 1)
    else some day

/-- The backward retreat loop "while self.non_working_day(real_end):
real_end -= 1 day" (gantt.py lines 1145-1146), with fuel. -/
def retreatOverNonWorking (cal : Calendar) (t : Task) : Nat → Int → Option Int
  | 0, _ => none
  | fuel + 1, day =>
    if t.non_working_day cal day then retreatOverNonWorking cal t fuel (day - 1)
    else some day

/-- The dependency scan of case "start set, has dependencies"
(gantt.py lines 977-984): for a Milestone dependency whose end is at or
after the current bound the bound becomes that end; for a Task dependency
it becomes that end plus one day.  A dependency whose end_date() raises, or
returns None (compared with >= against a date), raises. -/
def foldDepsStartSet : List Dep → Int → Except Unit Int
  | [], prev => .ok prev
  | d :: rest, prev =>
    match d.endResult with
    | .error e => .error e
    | .ok none => .error ()
    | .ok (some e) =>
      if d.isMilestone then
        if e ≥ prev then foldDepsStartSet rest e else foldDepsStartSet rest prev
      else
        if e ≥ prev then foldDepsStartSet rest (e + 1) else foldDepsStartSet rest prev

/-- The dependency scan of case "duration and dependencies fixed"
(gantt.py lines 1040-1047): prev starts as None; "prev is None or
end > prev" short-circuits, a Milestone contributes end - 1 day, a Task
contributes end as is. -/
def foldDepsDurationDeps : List Dep → Option Int → Except Unit (Option Int)
  | [], prev => .ok prev
  | d :: rest, prev =>
    match d.endResult with
    | .error e => .error e
    | .ok e =>
      match prev with
      | none =>
        if d.isMilestone then
          match e with
          | none => .error ()
          | some ev => foldDepsDurationDeps rest (some (ev - 1))
        else foldDepsDurationDeps rest e
      | some pv =>
        match e with
        | none => .error ()
        | some ev =>
          if ev > pv then
            if d.isMilestone then foldDepsDurationDeps rest (some (ev - 1))
            else foldDepsDurationDeps rest (some ev)
          else foldDepsDurationDeps rest prev

/-- The dependency scan of case "stop and duration fixed"
(gantt.py lines 1078-1087): both the Milestone and the Task branch keep the
plain end date when it is strictly greater than the bound. -/
def foldDepsStopFixed : List Dep → Option Int → Except Unit (Option Int)
  | [], prev => .ok prev
  | d :: rest, prev =>
    match d.endResult with
    | .error e => .error e
    | .ok e =>
      match pyGt e prev with
      | .error er => .error er
      | .ok true => foldDepsStopFixed rest e
      | .ok false => foldDepsStopFixed rest prev

/-- The backward duration-consuming loop of case "stop and duration fixed"
(gantt.py lines 1062-1072): examines stop, stop-1, ... counting
real_duration, consuming one duration unit per working day; returns the
final real_duration. -/
def backWalk (cal : Calendar) (t : Task) (stp : Int) : Nat → Int → Int → Option Int
  | 0, _, _ => none
  | fuel + 1, real, dur =>
    if dur > 0 then
      backWalk cal t stp fuel (real + 1)
        (if t.non_working_day cal (stp - real) then dur else dur - 1)
    else some real

/-- The forward duration-consuming loop of Task.end_date
(gantt.py lines 1150-1161 and 1184-1194): while duration > 1 or the current
day is non-working, advance real_duration, consuming one duration unit per
working day; returns the final real_duration (the end is start_date plus
that many days). -/
def forwardWalk (cal : Calendar) (t : Task) (s0 : Int) : Nat → Nat → Int → Option Nat
  | 0, _, _ => none
  | fuel + 1, real, dur =>
    if dur > 1 || t.non_working_day cal (s0 + real) then
      forwardWalk cal t s0 fuel (real + 1)
        (if t.non_working_day cal (s0 + real) then dur else dur - 1)
    else some real

/-- Task.start_date without the cache check (gantt.py lines 943-1120; the
cache handling is in start_date_S below).  The branch structure is
translated case by case:
the first branch (line 952) covers every task whose start is set; the
second (line 999, comment "start and stop fixed") is reached only when
start is None and duration is None, in which case current_day = self.start
is None, so with dependencies present every execution path raises a
TypeError (comparing a date with None at line 1014 or inside the loop at
lines 1003-1010) and the path without dependencies caches and returns
None; the third branch (line 1035) handles duration plus dependencies with
no stop; the fourth (line 1060) handles stop plus duration; when no branch
fires, the cache stays None and None is returned (line 1120).
Iterating or indexing a bare dependency object stored by the add_depends
bug raises, hence the .single arms return errors. -/
def compute_start_date (cal : Calendar) (fuel : Nat) (t : Task) :
    Except Unit (Option Int) :=
  match t.start with
  | some st =>
    match t.dependsOn with
    | none =>
      match advanceOverNonWorking cal t fuel st with
      | none => .error ()
      | some s => .ok (some s)
    | some (.single _) => .error ()
    | some (.list deps) =>
      match advanceOverNonWorking cal t fuel st with
      | none => .error ()
      | some s =>
        match foldDepsStartSet deps s with
        | .error e => .error e
        | .ok prev =>
          match advanceOverNonWorking cal t fuel prev with
          | none => .error ()
          | some p => .ok (some p)
  | none =>
    match t.duration with
    | none =>
      match t.dependsOn with
      | some _ => .error ()
      | none => .ok none
    | some dur =>
      match t.dependsOn, t.stop with
      | some dv, none =>
        match dv with
        | .single _ => .error ()
        | .list deps =>
          match foldDepsDurationDeps deps none with
          | .error e => .error e
          | .ok none => .error ()
          | .ok (some p) =>
            match advanceOverNonWorking cal t fuel (p + 1) with
            | none => .error ()
            | some s => .ok (some s)
      | depsOpt, some stp =>
        match backWalk cal t stp fuel 0 dur with
        | none => .error ()
        | some real =>
          let current := stp - (real - 1)
          match depsOpt with
          | none => .ok (some current)
          | some (.single _) => .error ()
          | some (.list []) => .error ()
          | some (.list (d0 :: rest)) =>
            match d0.endResult with
            | .error e => .error e
            | .ok prev0 =>
              match foldDepsStopFixed (d0 :: rest) prev0 with
              | .error e => .error e
              | .ok none => .error ()
              | .ok (some pv) =>
                let start0 := if pv > current then pv + 1 else current
                match advanceOverNonWorking cal t fuel start0 with
                | none => .error ()
                | some s => .ok (some s)
      | none, none => .ok none

/-- Task.end_date without the cache check (gantt.py lines 1132-1202) for a
plain Task, and Milestone.end_date (lines 1830-1837, return
self.start_date()) for a Milestone.  For a Task: when stop is set and
duration or start is unset, retreat from stop over non-working days, then -
only when a duration is also given and the retreated end does not lie after
start_date() - recount the duration forward from start_date() (the slipped
end); when stop is unset and duration is set, count the duration forward
from start_date(); otherwise raise ValueError (line 1201).  The comparison
real_end <= self.start_date() raises when start_date() returns None. -/
def compute_end_date (cal : Calendar) (fuel : Nat) (t : Task) :
    Except Unit (Option Int) :=
  if t.isMilestone then compute_start_date cal fuel t
  else
    match t.stop with
    | some stp =>
      if t.duration = none ∨ t.start = none then
        match retreatOverNonWorking cal t fuel stp with
        | none => .error ()
        | some realEnd =>
          match compute_start_date cal fuel t with
          | .error e => .error e
          | .ok sOpt =>
            match pyLe (some realEnd) sOpt with
            | .error e => .error e
            | .ok cmp =>
              if cmp ∧ t.duration ≠ none then
                match sOpt, t.duration with
                | some s0, some dur =>
                  match forwardWalk cal t s0 fuel 0 dur with
                  | none => .error ()
                  | some real => .ok (some (s0 + real))
                | _, _ => .error ()
              else .ok (some realEnd)
      else .error ()
    | none =>
      match t.duration with
      | some dur =>
        match compute_start_date cal fuel t with
        | .error e => .error e
        | .ok none => .error ()
        | .ok (some s0) =>
          match forwardWalk cal t s0 fuel 0 dur with
          | none => .error ()
          | some real => .ok (some (s0 + real))
      | none => .error ()

/-- A Task object with its mutable cached dates (_cache_start_date and
_cache_end_date, gantt.py lines 902-903).  The drawn_x/y layout
coordinates also cleared by _reset_coord are never touched by date
resolution and are omitted. -/
structure TaskState where
  task : Task
  cacheStartDate : Option Int := none
  cacheEndDate : Option Int := none

/-- Task._reset_coord (gantt.py lines 1683-1693): clear the cached dates. -/
def TaskState.reset_coord (ts : TaskState) : TaskState :=
  { task := ts.task, cacheStartDate := none, cacheEndDate := none }

/-- Task.start_date with its cache check (gantt.py lines 948-949): return
the cached date if set; otherwise compute, caching the result when it is a
date (every branch that produces a date stores it in _cache_start_date
before returning; the branch that produces None leaves the cache None, and
a raised exception leaves the cache unset). -/
def start_date_S (cal : Calendar) (fuel : Nat) (ts : TaskState) :
    Except Unit (Option Int) × TaskState :=
  match ts.cacheStartDate with
  | some d => (.ok (some d), ts)
  | none =>
    match compute_start_date cal fuel ts.task with
    | .ok (some d) => (.ok (some d), { ts with cacheStartDate := some d })
    | r => (r, ts)

/-- Task.end_date with its cache check (gantt.py lines 1137-1138), and
Milestone.end_date (line 1837), which ignores the end cache and simply
calls start_date(). -/
def end_date_S (cal : Calendar) (fuel : Nat) (ts : TaskState) :
    Except Unit (Option Int) × TaskState :=
  if ts.task.isMilestone then start_date_S cal fuel ts
  else
    match ts.cacheEndDate with
    | some d => (.ok (some d), ts)
    | none =>
      match compute_end_date cal fuel ts.task with
      | .ok (some d) => (.ok (some d), { ts with cacheEndDate := some d })
      | r => (r, ts)

/-- The minimum-end scan of Task.add_depends (gantt.py lines 932-935):
min_start_date starts as depends_on[0].end_date() and each dependency with
a non-None end strictly below the current minimum replaces it; comparing a
date against a None minimum raises. -/
def minEndFold : List Dep → Option Int → Except Unit (Option Int)
  | [], acc => .ok acc
  | d :: rest, acc =>
    match d.endResult with
    | .error _ => .error ()
    | .ok none => minEndFold rest acc
    | .ok (some e) =>
      match acc with
      | none => .error ()
      | some a => minEndFold rest (if e < a then some e else acc)

/-- The start-floor update of Task.add_depends (gantt.py lines 930-939),
run after the dependency list was merged: when the list is non-empty,
compute the minimum dependency end and raise start to it when start is
None or smaller. -/
def add_depends_update_start (t : Task) : Task × Except Unit Unit :=
  match t.dependsOn with
  | some (.list (d0 :: rest)) =>
    match d0.endResult with
    | .error _ => (t, .error ())
    | .ok min0 =>
      match minEndFold (d0 :: rest) min0 with
      | .error _ => (t, .error ())
      | .ok none => (t, .ok ())
      | .ok (some ms) =>
        match t.start with
        | none => ({ t with start := some ms }, .ok ())
        | some st =>
          if st < ms then ({ t with start := some ms }, .ok ()) else (t, .ok ())
  | _ => (t, .ok ())

/-- Task.add_depends (gantt.py lines 912-941).  The merge step: a list
argument is stored as is when depends_on is None or extended onto an
existing list; a non-list argument is stored bare when depends_on is None -
after which len(self.depends_on) at line 931 raises TypeError with the
bare object already stored - or appended to an existing list.  Calling
.extend/.append on a previously stored bare object raises AttributeError
and leaves the state unchanged.  The returned pair is the task state after
the call together with .ok () for a normal return or .error () for a
raised exception. -/
def add_depends (t : Task) (arg : DependsArg) : Task × Except Unit Unit :=
  match arg with
  | .list l =>
    match t.dependsOn with
    | none => add_depends_update_start { t with dependsOn := some (.list l) }
    | some (.list l0) => add_depends_update_start { t with dependsOn := some (.list (l0 ++ l)) }
    | some (.single _) => (t, .error ())
  | .single d =>
    match t.dependsOn with
    | none => ({ t with dependsOn := some (.single d) }, .error ())
    | some (.list l0) => add_depends_update_start { t with dependsOn := some (.list (l0 ++ [d])) }
    | some (.single _) => (t, .error ())

/-- The inclusive day range iterated by "cday = t.start_date(); while cday
<= t.end_date(): ... cday += 1 day" (gantt.py lines 651-659). -/
def spanDays (s e : Int) : List Int :=
  if s ≤ e then (List.range ((e - s).toNat + 1)).map (fun i => s + i) else []

/-- Insertion into the affected_days dictionary (gantt.py lines 654-657):
append the task name under the date key, creating the key on KeyError. -/
def addAffected (m : List (Int × List String)) (d : Int) (nm : String) :
    List (Int × List String) :=
  if m.any (fun p => p.1 == d) then
    m.map (fun p => if p.1 == d then (p.1, p.2 ++ [nm]) else p)
  else m ++ [(d, [nm])]

/-- One task's contribution to affected_days (gantt.py lines 650-659): every
day of [start_date(), end_date()] whose weekday is not in
_not_worked_days() gets the task's fullname appended - note that global
VACATIONS days are NOT filtered out here.  The loop raises when
start_date() or end_date() raises or returns None (compared with <=). -/
def affectedDaysOfTask (cal : Calendar) (fuel : Nat) (t : Task)
    (m : List (Int × List String)) : Except Unit (List (Int × List String)) :=
  match compute_start_date cal fuel t, compute_end_date cal fuel t with
  | .ok (some s), .ok (some e) =>
    .ok ((spanDays s e).foldl
      (fun acc cday =>
        if decide (weekday cday ∈ cal.notWorkedDays) then acc
        else addAffected acc cday t.fullname) m)
  | _, _ => .error ()

/-- Resource.search_for_task_conflicts (gantt.py lines 641-678).  The
resource's tasks back-reference list is passed explicitly.  With all_tasks
the whole affected_days map is returned; otherwise only the entries
carrying more than one task name (the Python code iterates the keys in
sorted order only to emit warnings, which does not change the returned
entries and is not modeled). -/
def search_for_task_conflicts (cal : Calendar) (fuel : Nat) (tasks : List Task)
    (all_tasks : Bool) : Except Unit (List (Int × List String)) := do
  let affected ← tasks.foldlM (fun m t => affectedDaysOfTask cal fuel t m) []
  if all_tasks then pure affected
  else pure (affected.filter (fun p => p.2.length > 1))

/-- Project (gantt.py line 2131): the ordered children list.  Children that
are sub-Projects are not needed by any verified property; the embedded
children are Tasks. -/
structure Project where
  name : String := ""
  tasks : List Task := []

/-- The minimum scan of Project.start_date (gantt.py lines 2977-2980);
comparing a None start date raises. -/
def projMinFold (cal : Calendar) (fuel : Nat) :
    Option Int → List Task → Except Unit (Option Int)
  | first, [] => .ok first
  | first, t :: rest =>
    match compute_start_date cal fuel t with
    | .error e => .error e
    | .ok s =>
      match pyLt s first with
      | .error e => .error e
      | .ok true => projMinFold cal fuel s rest
      | .ok false => projMinFold cal fuel first rest

/-- The maximum scan of Project.end_date (gantt.py lines 2991-2994). -/
def projMaxFold (cal : Calendar) (fuel : Nat) :
    Option Int → List Task → Except Unit (Option Int)
  | last, [] => .ok last
  | last, t :: rest =>
    match compute_end_date cal fuel t with
    | .error e => .error e
    | .ok s =>
      match pyGt s last with
      | .error e => .error e
      | .ok true => projMaxFold cal fuel s rest
      | .ok false => projMaxFold cal fuel last rest

/-- Project.start_date (gantt.py lines 2969-2981): date(9999, 1, 1) on an
empty project, otherwise the minimum of the children's start dates. -/
def Project.start_date (cal : Calendar) (fuel : Nat) (p : Project) :
    Except Unit (Option Int) :=
  match p.tasks with
  | [] => .ok (some date99990101)
  | t0 :: _ =>
    match compute_start_date cal fuel t0 with
    | .error e => .error e
    | .ok first => projMinFold cal fuel first p.tasks

/-- Project.end_date (gantt.py lines 2983-2995): date(1970, 1, 1) on an
empty project, otherwise the maximum of the children's end dates. -/
def Project.end_date (cal : Calendar) (fuel : Nat) (p : Project) :
    Except Unit (Option Int) :=
  match p.tasks with
  | [] => .ok (some date19700101)
  | t0 :: _ =>
    match compute_end_date cal fuel t0 with
    | .error e => .error e
    | .ok last => projMaxFold cal fuel last p.tasks

/-- The effective window start of Project.make_svg_for_tasks
(gantt.py line 2543): the start argument when given, else the project's
resolved start. -/
def effective_start (cal : Calendar) (fuel : Nat) (p : Project)
    (start : Option Int) : Except Unit (Option Int) :=
  match start with
  | some s => .ok (some s)
  | none => Project.start_date cal fuel p

/-- The effective window end of Project.make_svg_for_tasks
(gantt.py line 2544). -/
def effective_end (cal : Calendar) (fuel : Nat) (p : Project)
    (end_ : Option Int) : Except Unit (Option Int) :=
  match end_ with
  | some e => .ok (some e)
  | none => Project.end_date cal fuel p

/-- Observable outcome of Project.make_svg_for_tasks: the empty-project
early return that writes nothing (lines 2537-2539), the ValueError raised
at line 2549 before any drawing object or file exists, or passing both
guards and proceeding to the drawing phase (whose file is written by
dwg.save at line 2597 on success). -/
inductive RenderResult where
  | emptyNoWrite
  | windowValueError
  | proceedsToDraw
deriving DecidableEq

/-- Project.make_svg_for_tasks up to its two guards (gantt.py lines
2508-2549): zero tasks log a warning and return without writing; then
the effective window is resolved and start_date > end_date raises
ValueError; otherwise drawing proceeds. -/
def make_svg_for_tasks (cal : Calendar) (fuel : Nat) (p : Project)
    (start end_ : Option Int) : Except Unit RenderResult :=
  if p.tasks.length = 0 then .ok .emptyNoWrite
  else do
    let sd ← effective_start cal fuel p start
    let ed ← effective_end cal fuel p end_
    let gt ← pyGt sd ed
    if gt then .ok .windowValueError else .ok .proceedsToDraw

/-- Drawing scales (gantt.py lines 164-167): the characters d, w, m, q. -/
inductive Scale where
  | daily
  | weekly
  | monthly
  | quarterly
deriving DecidableEq

/-- Proleptic Gregorian leap year, as datetime uses. -/
def isLeap (y : Int) : Bool := (y % 4 == 0 && y % 100 != 0) || y % 400 == 0

/-- Length of month m of year y. -/
def daysInMonth (y m : Int) : Int :=
  if m == 2 then (if isLeap y then 29 else 28)
  else if m == 4 || m == 6 || m == 9 || m == 11 then 30 else 31

/-- Day number of the civil date (y, m, d), epoch 2024-01-01.  Standard
era/year-of-era computation for the proleptic Gregorian calendar; the Int
division here is Euclidean, which floors for the positive divisors used. -/
def daysFromCivil (y m d : Int) : Int :=
  let y' := if m ≤ 2 then y - 1 else y
  let era := y' / 400
  let yoe := y' - era * 400
  let mp := if m > 2 then m - 3 else m + 9
  let doy := (153 * mp + 2) / 5 + d - 1
  let doe := yoe * 365 + yoe / 4 - yoe / 100 + doy
  era * 146097 + doe - 719468 - 19723

/-- Civil date (y, m, d) of a day number, inverse of daysFromCivil. -/
def civilFromDays (z0 : Int) : Int × Int × Int :=
  let z := z0 + 719468 + 19723
  let era := z / 146097
  let doe := z - era * 146097
  let yoe := (doe - doe / 1460 + doe / 36524 - doe / 146096) / 365
  let y := yoe + era * 400
  let doy := doe - (365 * yoe + yoe / 4 - yoe / 100)
  let mp := (5 * doy + 2) / 153
  let d := doy - (153 * mp + 2) / 5 + 1
  let m := if mp < 10 then mp + 3 else mp - 9
  (if m ≤ 2 then y + 1 else y, m, d)

/-- date + relativedelta(months=k): add k months, clamping the day to the
target month's length, as dateutil does. -/
def addMonths (d0 : Int) (k : Int) : Int :=
  let c := civilFromDays d0
  let m0 := c.2.1 - 1 + k
  let y' := c.1 + m0 / 12
  let m' := m0 % 12 + 1
  daysFromCivil y' m' (min c.2.2 (daysInMonth y' m'))

/-- The month-count fix-up loop of relativedelta(dt1, dt2) from dateutil:
the raw month difference is adjusted until dt2 shifted by that many months
no longer overshoots dt1 (in the direction of the difference). -/
def rdFixUp (d1 d2 : Int) : Nat → Int → Option Int
  | 0, _ => none
  | fuel + 1, months =>
    let dtm := addMonths d2 months
    if d1 < d2 then
      if d1 > dtm then rdFixUp d1 d2 fuel (months + 1) else some months
    else
      if d1 < dtm then rdFixUp d1 d2 fuel (months - 1) else some months

/-- relativedelta(d1, d2) normalized to (years * 12 + months, days), the
two components read by _time_diff and _get_maxx. -/
def rdMonthsDays (d1 d2 : Int) : Option (Int × Int) :=
  let c1 := civilFromDays d1
  let c2 := civilFromDays d2
  match rdFixUp d1 d2 24 ((c1.1 - c2.1) * 12 + (c1.2.1 - c2.2.1)) with
  | none => none
  | some months => some (months, d1 - addMonths d2 months)

/-- The loop "while guess.weekday() != 0: guess -= 1 day" (gantt.py lines
723-724 and 764-769): step back to the preceding Monday. -/
def backToMonday (d : Int) : Int :=
  if h : d % 7 = 0 then d else backToMonday (d - 1)
termination_by (d % 7).toNat
decreasing_by omega

/-- The loop "while end_date.weekday() != 6: end_date += 1 day" (gantt.py
lines 725-726 and 771-772): step forward to the following Sunday. -/
def forwardToSunday (d : Int) : Int :=
  if h : d % 7 = 6 then d else forwardToSunday (d + 1)
termination_by (6 - d % 7).toNat
decreasing_by omega

/-- The week-counting loop of _time_diff (gantt.py lines 774-776):
"while guess + 6 days < end_date: td += 1; guess += 1 week". -/
def weekLoop (endD : Int) (guess : Int) (td : Int) : Int :=
  if h : guess + 6 < endD then weekLoop endD (guess + 7) (td + 1) else td
termination_by (endD - guess).toNat
decreasing_by omega

/-- The week-counting loop of _get_maxx (gantt.py lines 727-729):
"while guess <= end_date: maxx += 1; guess += 1 week". -/
def maxxWeekLoop (endD : Int) (guess : Int) (maxx : Int) : Int :=
  if h : guess ≤ endD then maxxWeekLoop endD (guess + 7) (maxx + 1) else maxx
termination_by (endD + 7 - guess).toNat
decreasing_by omega

/-- Python round(q, 2).  Python rounds halves to even, but every value this
is applied to in _time_diff is an integer divided by 7 and an exact half at
two decimals would need the value to be divisible by 7, making it an
integer, so plain half-up rounding coincides. -/
def round2 (q : ℚ) : ℚ := (⌊q * 100 + 1 / 2⌋ : Int) / 100

/-- _time_diff (gantt.py lines 745-800).  duration = True computes a task
length, otherwise an offset from the chart origin.  Daily scale is a plain
day difference; weekly scale moves start back to Monday and - depending on
duration - end back to Monday or forward to Sunday, counts whole weeks,
then applies the milestone correction and the optional fractional-week
refinement; monthly scale counts relativedelta months (start snapped to
the 1st when not a duration); quarterly scale raises ValueError. -/
def time_diff (scale : Scale) (start_date end_date : Int) (duration : Bool)
    (milestone : Bool) (tu_fraction : Bool) : Except Unit ℚ :=
  match scale with
  | .daily => .ok ((end_date - start_date : Int) : ℚ)
  | .weekly =>
    let origEnd := end_date
    let longerThanWeek := decide (origEnd - start_date > 7)
    let guess := backToMonday start_date
    let end2 := if duration then backToMonday end_date else forwardToSunday end_date
    let td := weekLoop end2 guess 0
    if milestone then .ok ((td : ℚ) - 1)
    else if tu_fraction then
      if longerThanWeek then
        .ok ((td : ℚ) + round2 ((weekday origEnd : ℚ) / 7) - (if duration then 1 else 0))
      else .ok (round2 (((origEnd - start_date : Int) : ℚ) / 7))
    else .ok ((td : ℚ))
  | .monthly =>
    let sd := if duration then start_date
      else daysFromCivil (civilFromDays start_date).1 (civilFromDays start_date).2.1 1
    match rdMonthsDays end_date sd with
    | none => .error ()
    | some md => .ok ((md.1 : ℚ))
  | .quarterly => .error ()

/-- _get_maxx (gantt.py lines 715-742): the number of scale units the chart
spans; weekly scale snaps outward to Monday/Sunday before counting,
monthly scale uses relativedelta(end + 1 day, start), quarterly raises. -/
def get_maxx (scale : Scale) (start_date end_date : Int) : Except Unit Int :=
  match scale with
  | .daily => .ok (end_date - start_date)
  | .weekly =>
    let guess := backToMonday start_date
    let e2 := forwardToSunday end_date
    .ok (maxxWeekLoop e2 guess 0 - 1)
  | .monthly =>
    match rdMonthsDays (end_date + 1) start_date with
    | none => .error ()
    | some md => .ok (md.1 - 1 + (if md.2 > 0 then 1 else 0))
  | .quarterly => .error ()

/-- Number of working days - days that are neither non-working weekdays nor
globally excluded dates - in the inclusive interval [a, b].  This is the
measure the specification uses to relate a task's duration to its span. -/
def countWorkingDays (cal : Calendar) (a b : Int) : Nat :=
  ((List.range ((b - a).toNat + 1)).filter
    (fun i : Nat => !cal.isNonWorking (a + (i : Int)))).length

/-- The default process state: NOT_WORKED_DAYS = [5, 6], VACATIONS = []. -/
def defaultCal : Calendar := {}

/-- Concrete milestone of the C7 scenario: start = 2024-03-15. -/
def m20240315 : Task := Milestone.init "M1" (some date20240315) none

/-- Concrete task and dependency for the C10 witness. -/
def c10task : Task := { name := "T", start := some 0, duration := some 3 }

def c10dep : Dep := { isMilestone := false, endResult := .ok (some 5) }

/-- Concrete projects for the C8 witness. -/
def c8empty : Project := { name := "P0" }

def c8task : Task := { name := "T", fullname := "T", start := some 0, duration := some 2 }

def c8proj : Project := { name := "P1", tasks := [c8task] }

/-- Calendar and task for the C5 counterexample: 2024-01-02 (day 1, a
Tuesday) is a globally excluded date lying inside the task's span. -/
def c5cal : Calendar := { notWorkedDays := [5, 6], vacations := [1] }

def c5task : Task := { name := "T1", fullname := "T1", start := some 0, duration := some 3 }

/-- Tasks for the C1 counterexample: a zero-duration task, and a task with
exactly one assigned resource whose private vacation day 2024-01-02 falls
inside the span. -/
def c1zero : Task := { name := "Z", start := some 0, duration := some 0 }

def c1res : Resource := { name := "R", fullname := "R", vacations := [(1, 1)] }

def c1single : Task :=
  { name := "S", start := some 0, duration := some 2, resources := some [c1res] }

/-- Dependency and task for the C2 counterexample: A has stop = 2024-01-02
and duration = 2, its Task dependency B ends 2024-01-01. -/
def c2dep : Dep := { isMilestone := false, endResult := .ok (some 0) }

def c2cex : Task :=
  { name := "A", stop := some 1, duration := some 2,
    dependsOn := some (.list [c2dep]) }

/-- Failing input for C3: stop = 2024-01-10, no start, no duration, one
Task dependency ending 2024-01-05; and the same without dependencies. -/
def c3dep : Dep := { isMilestone := false, endResult := .ok (some 4) }

def c3task : Task := { name := "C", stop := some 9, dependsOn := some (.list [c3dep]) }

def c3taskNoDeps : Task := { name := "C0", stop := some 9 }

/-- Concrete state for the C4 witness. -/
def c4state : TaskState := { task := { name := "W", start := some 0, duration := some 2 } }

/-- Number of working days (by the task's own non_working_day) among the
first k days starting at s0. -/
def workCount (cal : Calendar) (t : Task) (s0 : Int) (k : Nat) : Nat :=
  ((List.range k).filter (fun i : Nat => !(t.non_working_day cal (s0 + (i : Int))))).length

/-- The C1 scenario task: start 2024-01-01 (Monday), duration 5. -/
def c1task : Task := { name := "A", fullname := "A", start := some 0, duration := some 5 }

/-- Concrete task for the C2 witness: start 2024-01-04, one Task dependency
ending 2024-01-01. -/
def c2depW : Dep := { isMilestone := false, endResult := .ok (some 0) }

def c2taskW : Task :=
  { name := "W2", start := some 3, duration := some 2,
    dependsOn := some (.list [c2depW]) }

/-- C6: Resource.is_available(D) returns false exactly when D is a globally
excluded date, or D falls inside a vacation period of some group the
resource belongs to, or D falls inside one of the resource's own vacation
periods; it returns true otherwise.  Because the result is equivalent to
this disjunction, it does not depend on the order of the three checks. -/
theorem C6_is_available_characterization (cal : Calendar) (r : Resource) (d : Int) :
    Resource.is_available cal r d = false ↔
      (d ∈ cal.vacations ∨
        (∃ g ∈ r.member_of_groups, ∃ v ∈ g.vacations, v.1 ≤ d ∧ d ≤ v.2) ∨
        (∃ v ∈ r.vacations, v.1 ≤ d ∧ d ≤ v.2)) := by
  have hg : (r.member_of_groups.any
        fun g => g.vacations.any fun h => decide (h.1 ≤ d) && decide (d ≤ h.2)) = true ↔
      (∃ g ∈ r.member_of_groups, ∃ v ∈ g.vacations, v.1 ≤ d ∧ d ≤ v.2) := by
    simp [List.any_eq_true, Bool.and_eq_true, decide_eq_true_eq]
  have hr : (r.vacations.any fun h => decide (h.1 ≤ d) && decide (d ≤ h.2)) = true ↔
      (∃ v ∈ r.vacations, v.1 ≤ d ∧ d ≤ v.2) := by
    simp [List.any_eq_true, Bool.and_eq_true, decide_eq_true_eq]
  unfold Resource.is_available
  split_ifs with h1 h2 h3
  · simp only [decide_eq_true_eq] at h1
    simp only [true_iff, eq_self_iff_true]
    exact Or.inl h1
  · simp only [true_iff, eq_self_iff_true]
    exact Or.inr (Or.inl (hg.mp h2))
  · simp only [true_iff, eq_self_iff_true]
    exact Or.inr (Or.inr (hr.mp h3))
  · simp only [decide_eq_true_eq] at h1
    constructor
    · intro hfalse
      exact absurd hfalse (by simp)
    · rintro (hA | hB | hC)
      · exact absurd hA h1
      · exact absurd (hg.mpr hB) h2
      · exact absurd (hr.mpr hC) h3

/-- C7: for every Milestone, end_date() is precisely the value of
start_date(), whatever the inputs; in particular they are equal whenever
start_date() resolves. -/
theorem C7_milestone_end_eq_start (cal : Calendar) (fuel : Nat) (t : Task)
    (h : t.isMilestone = true) :
    compute_end_date cal fuel t = compute_start_date cal fuel t := by
  unfold compute_end_date
  rw [h]
  simp

/-- Witness for C7: the Milestone with start = 2024-03-15 resolves to
start_date() = end_date() = 2024-03-15 exactly. -/
theorem C7_witness :
    compute_end_date defaultCal 10 m20240315 = compute_start_date defaultCal 10 m20240315 ∧
    compute_start_date defaultCal 10 m20240315 = .ok (some date20240315) :=
  ⟨C7_milestone_end_eq_start defaultCal 10 m20240315 rfl, rfl⟩

/-- C10: on a task whose depends_on is None, add_depends with a bare
(non-list) dependency stores the bare object in depends_on and then raises
(len of a Task object), so the call never succeeds; the constructor, by
contrast, wraps a bare dependency into a singleton list. -/
theorem C10_add_depends_single_bare (t : Task) (d : Dep)
    (h : t.dependsOn = none) :
    add_depends t (.single d) = ({ t with dependsOn := some (.single d) }, .error ()) ∧
    initDependsOn (some (.single d)) = some (.list [d]) := by
  refine ⟨?_, rfl⟩
  unfold add_depends
  rw [h]

/-- Witness for C10 at a concrete task with no prior dependencies. -/
theorem C10_witness :
    add_depends c10task (.single c10dep) =
      ({ c10task with dependsOn := some (.single c10dep) }, .error ()) ∧
    initDependsOn (some (.single c10dep)) = some (.list [c10dep]) :=
  C10_add_depends_single_bare c10task c10dep rfl

/-- C8: rendering a Project with an empty task list returns without writing
and without raising; rendering a non-empty Project whose effective window
start lies strictly after the effective window end raises the ValueError
before any output object exists. -/
theorem C8_render_guards (cal : Calendar) (fuel : Nat) (p : Project)
    (s e : Option Int) :
    (p.tasks = [] → make_svg_for_tasks cal fuel p s e = .ok .emptyNoWrite) ∧
    (∀ sd ed : Int, p.tasks ≠ [] →
      effective_start cal fuel p s = .ok (some sd) →
      effective_end cal fuel p e = .ok (some ed) →
      sd > ed →
      make_svg_for_tasks cal fuel p s e = .ok .windowValueError) := by
  constructor
  · intro h
    simp [make_svg_for_tasks, h]
  · intro sd ed hne hs he hgt
    have hlen : ¬ p.tasks.length = 0 := by
      simpa [List.length_eq_zero] using hne
    simp [make_svg_for_tasks, hlen, hs, he, pyGt, bind, Except.bind, hgt]

/-- Witness for C8: the empty project returns the silent no-op, and the
one-task project with window 2024-01-06 > 2024-01-04 raises. -/
theorem C8_witness :
    make_svg_for_tasks defaultCal 10 c8empty none none = .ok .emptyNoWrite ∧
    make_svg_for_tasks defaultCal 10 c8proj (some 5) (some 3) = .ok .windowValueError :=
  ⟨(C8_render_guards defaultCal 10 c8empty none none).1 rfl,
   (C8_render_guards defaultCal 10 c8proj (some 5) (some 3)).2 5 3
      (by simp [c8proj]) rfl rfl (by norm_num)⟩

/-- Counterexample to C5 as stated: the conflict map of a resource whose
task spans the excluded date 2024-01-02 contains that excluded date as a
key (the per-day filter at gantt.py line 653 checks only the weekday, not
VACATIONS), so not every key is a working day in the claimed sense. -/
theorem C5_counterexample :
    search_for_task_conflicts c5cal 50 [c5task] true =
      .ok [(0, ["T1"]), (1, ["T1"]), (2, ["T1"]), (3, ["T1"])] ∧
    (1 : Int) ∈ c5cal.vacations :=
  ⟨rfl, by simp [c5cal]⟩

/-- Counterexample to C1 as stated: with duration = 0 the inclusive span
[start_date, end_date] contains one working day, not zero; and with exactly
one assigned resource the resource's vacation extends the task's
non-working days, so the span holds three calendar-working days against a
duration of two. -/
theorem C1_counterexample :
    (compute_start_date defaultCal 50 c1zero = .ok (some 0) ∧
      compute_end_date defaultCal 50 c1zero = .ok (some 0) ∧
      c1zero.duration = some 0 ∧
      ¬ ((countWorkingDays defaultCal 0 0 : Int) = 0)) ∧
    (compute_start_date defaultCal 50 c1single = .ok (some 0) ∧
      compute_end_date defaultCal 50 c1single = .ok (some 2) ∧
      c1single.duration = some 2 ∧
      ¬ ((countWorkingDays defaultCal 0 2 : Int) = 2)) :=
  ⟨⟨rfl, rfl, rfl, by decide⟩, ⟨rfl, rfl, rfl, by decide⟩⟩

/-- Counterexample to C2 as stated: in the stop-and-duration configuration
the resolved start of A equals the end of its Task dependency B
(2024-01-01), violating the claimed strict inequality
start_date(A) > end_date(B). -/
theorem C2_counterexample :
    c2cex.dependsOn = some (.list [c2dep]) ∧
    c2dep.isMilestone = false ∧
    compute_start_date defaultCal 50 c2cex = .ok (some 0) ∧
    c2dep.endResult = .ok (some 0) ∧
    ¬ ((0 : Int) > 0) :=
  ⟨rfl, rfl, rfl, rfl, by decide⟩

/-- C3 evaluated at the failing input: in the branch for start unset, stop
set, duration unset (gantt.py line 999) current_day = self.start is None,
so with dependencies the comparison prev_task_end > current_day at line
1014 raises TypeError (modeled as error), and without dependencies the
function caches and returns None instead of a date derived from stop. -/
theorem C3_failing_input_eval :
    compute_start_date defaultCal 50 c3task = .error () ∧
    compute_start_date defaultCal 50 c3taskNoDeps = .ok none :=
  ⟨rfl, rfl⟩

/-- The Monday-stepping loop lands on the Monday of the week of d. -/
lemma backToMonday_eq_aux (k : Nat) :
    ∀ d : Int, (d % 7).toNat = k → backToMonday d = d - d % 7 := by
  induction k with
  | zero =>
    intro d hk
    have h0 : d % 7 = 0 := by omega
    rw [backToMonday, dif_pos h0, h0]
    ring
  | succ n ih =>
    intro d hk
    have h0 : ¬ d % 7 = 0 := by omega
    rw [backToMonday, dif_neg h0, ih (d - 1) (by omega)]
    omega

lemma backToMonday_eq (d : Int) : backToMonday d = d - d % 7 :=
  backToMonday_eq_aux (d % 7).toNat d rfl

/-- The Sunday-stepping loop lands on the Sunday of the week of d. -/
lemma forwardToSunday_eq_aux (k : Nat) :
    ∀ d : Int, (6 - d % 7).toNat = k → forwardToSunday d = d + (6 - d % 7) := by
  induction k with
  | zero =>
    intro d hk
    have h6 : d % 7 = 6 := by omega
    rw [forwardToSunday, dif_pos h6, h6]
    ring
  | succ n ih =>
    intro d hk
    have h6 : ¬ d % 7 = 6 := by omega
    rw [forwardToSunday, dif_neg h6, ih (d + 1) (by omega)]
    omega

lemma forwardToSunday_eq (d : Int) : forwardToSunday d = d + (6 - d % 7) :=
  forwardToSunday_eq_aux (6 - d % 7).toNat d rfl

/-- The week-counting loop counts exactly the whole weeks between a Monday
and the Sunday closing N weeks later. -/
lemma weekLoop_add (N : Nat) :
    ∀ guess td : Int, weekLoop (guess + 6 + 7 * (N : Int)) guess td = td + N := by
  induction N with
  | zero =>
    intro g td
    rw [weekLoop, dif_neg (by omega)]
    simp
  | succ n ih =>
    intro g td
    rw [weekLoop, dif_pos (by push_cast; omega)]
    have harg : g + 6 + 7 * ((n : Int) + 1) = (g + 7) + 6 + 7 * (n : Int) := by ring
    push_cast
    rw [harg, ih (g + 7) (td + 1)]
    ring

/-- C9: the week-scale offset computation with is_duration = false,
milestone = false and the fractional mode off, applied to a start date and
the date exactly N weeks later, returns N. -/
theorem C9_week_offset (start : Int) (N : Nat) :
    time_diff .weekly start (start + 7 * N) false false false = .ok ((N : ℚ)) := by
  unfold time_diff
  simp only [Bool.false_eq_true, if_false]
  rw [forwardToSunday_eq, backToMonday_eq]
  have hmod : (start + 7 * (N : Int)) % 7 = start % 7 := by omega
  rw [hmod]
  have harg : start + 7 * (N : Int) + (6 - start % 7) =
      (start - start % 7) + 6 + 7 * (N : Int) := by
    ring
  rw [harg, weekLoop_add N (start - start % 7) 0]
  norm_num

/-- The second projection of start_date_S never changes the task's input
fields, only the cache. -/
lemma start_date_S_task (cal : Calendar) (fuel : Nat) (ts : TaskState) :
    (start_date_S cal fuel ts).2.task = ts.task := by
  unfold start_date_S
  cases hc : ts.cacheStartDate with
  | some d => rfl
  | none =>
    cases hr : compute_start_date cal fuel ts.task with
    | error e => rfl
    | ok o => cases o <;> rfl

/-- Stability of start_date_S under a repeated call and under a reset
followed by recomputation, for a state whose cache starts empty. -/
lemma start_date_S_stable (cal : Calendar) (fuel : Nat) (ts : TaskState)
    (hs : ts.cacheStartDate = none) :
    (start_date_S cal fuel (start_date_S cal fuel ts).2).1 = (start_date_S cal fuel ts).1 ∧
    (start_date_S cal fuel (start_date_S cal fuel ts).2.reset_coord).1 =
      (start_date_S cal fuel ts).1 := by
  cases hr : compute_start_date cal fuel ts.task with
  | ok o =>
    cases o with
    | some d =>
      constructor
      · simp [start_date_S, hs, hr]
      · simp [start_date_S, TaskState.reset_coord, hs, hr]
    | none =>
      constructor
      · simp [start_date_S, hs, hr]
      · simp [start_date_S, TaskState.reset_coord, hs, hr]
  | error e =>
    constructor
    · simp [start_date_S, hs, hr]
    · simp [start_date_S, TaskState.reset_coord, hs, hr]

lemma end_date_S_milestone (cal : Calendar) (fuel : Nat) (ts : TaskState)
    (hm : ts.task.isMilestone = true) :
    end_date_S cal fuel ts = start_date_S cal fuel ts := by
  rw [end_date_S, if_pos hm]

lemma end_date_S_stable (cal : Calendar) (fuel : Nat) (ts : TaskState)
    (hs : ts.cacheStartDate = none) (he : ts.cacheEndDate = none) :
    (end_date_S cal fuel (end_date_S cal fuel ts).2).1 = (end_date_S cal fuel ts).1 ∧
    (end_date_S cal fuel (end_date_S cal fuel ts).2.reset_coord).1 =
      (end_date_S cal fuel ts).1 := by
  by_cases hm : ts.task.isMilestone = true
  · -- Milestone: end_date is start_date
    have h1 := start_date_S_stable cal fuel ts hs
    have htask := start_date_S_task cal fuel ts
    rw [end_date_S_milestone cal fuel ts hm]
    constructor
    · rw [end_date_S_milestone cal fuel _ (by rw [htask]; exact hm)]
      exact h1.1
    · rw [end_date_S_milestone cal fuel _
        (by simp only [TaskState.reset_coord, htask]; exact hm)]
      exact h1.2
  · cases hr : compute_end_date cal fuel ts.task with
    | ok o =>
      cases o with
      | some d =>
        constructor
        · simp [end_date_S, hm, he, hr]
        · simp [end_date_S, TaskState.reset_coord, hm, he, hr]
      | none =>
        constructor
        · simp [end_date_S, hm, he, hr]
        · simp [end_date_S, TaskState.reset_coord, hm, he, hr]
    | error e =>
      constructor
      · simp [end_date_S, hm, he, hr]
      · simp [end_date_S, TaskState.reset_coord, hm, he, hr]

/-- C4: with a fixed calendar and fixed inputs, calling start_date() or
end_date() twice without an intervening _reset_coord returns identical
results, and calling _reset_coord and re-resolving with unchanged inputs
and unchanged global state reproduces exactly the same dates. -/
theorem C4_cache_idempotence_roundtrip (cal : Calendar) (fuel : Nat) (ts : TaskState)
    (hs : ts.cacheStartDate = none) (he : ts.cacheEndDate = none) :
    (start_date_S cal fuel (start_date_S cal fuel ts).2).1 = (start_date_S cal fuel ts).1 ∧
    (end_date_S cal fuel (end_date_S cal fuel ts).2).1 = (end_date_S cal fuel ts).1 ∧
    (start_date_S cal fuel (start_date_S cal fuel ts).2.reset_coord).1 =
      (start_date_S cal fuel ts).1 ∧
    (end_date_S cal fuel (end_date_S cal fuel ts).2.reset_coord).1 =
      (end_date_S cal fuel ts).1 :=
  ⟨(start_date_S_stable cal fuel ts hs).1,
   (end_date_S_stable cal fuel ts hs he).1,
   (start_date_S_stable cal fuel ts hs).2,
   (end_date_S_stable cal fuel ts hs he).2⟩

/-- Witness for C4 at a concrete fresh task state. -/
theorem C4_witness :
    (start_date_S defaultCal 20 (start_date_S defaultCal 20 c4state).2).1 =
      (start_date_S defaultCal 20 c4state).1 ∧
    (end_date_S defaultCal 20 (end_date_S defaultCal 20 c4state).2).1 =
      (end_date_S defaultCal 20 c4state).1 ∧
    (start_date_S defaultCal 20 (start_date_S defaultCal 20 c4state).2.reset_coord).1 =
      (start_date_S defaultCal 20 c4state).1 ∧
    (end_date_S defaultCal 20 (end_date_S defaultCal 20 c4state).2.reset_coord).1 =
      (end_date_S defaultCal 20 c4state).1 :=
  C4_cache_idempotence_roundtrip defaultCal 20 c4state rfl rfl

/-- Inserting a name under a key that satisfies a key predicate preserves
the predicate over all keys of the affected_days map. -/
lemma addAffected_keys (P : Int → Prop) {m : List (Int × List String)}
    (hm : ∀ q ∈ m, P q.1) {d : Int} {nm : String} (hd : P d) :
    ∀ q ∈ addAffected m d nm, P q.1 := by
  intro q hq
  unfold addAffected at hq
  split at hq
  · obtain ⟨p, hp, hpq⟩ := List.mem_map.mp hq
    have : q.1 = p.1 := by
      by_cases h : p.1 == d <;> simp [h] at hpq <;> simp [← hpq]
    rw [this]
    exact hm p hp
  · rcases List.mem_append.mp hq with h | h
    · exact hm q h
    · simp at h
      rw [h]
      exact hd

/-- The per-task day loop only ever creates keys whose weekday passes the
_not_worked_days filter. -/
lemma spanFoldl_keys (cal : Calendar) (nm : String) :
    ∀ (days : List Int) (m : List (Int × List String)),
      (∀ q ∈ m, weekday q.1 ∉ cal.notWorkedDays) →
      ∀ q ∈ days.foldl
        (fun acc cday =>
          if decide (weekday cday ∈ cal.notWorkedDays) then acc
          else addAffected acc cday nm) m,
        weekday q.1 ∉ cal.notWorkedDays := by
  intro days
  induction days with
  | nil => intro m hm q hq; exact hm q hq
  | cons d ds ih =>
    intro m hm q hq
    simp only [List.foldl_cons] at hq
    by_cases hd : weekday d ∈ cal.notWorkedDays
    · rw [if_pos (by simpa using hd)] at hq
      exact ih m hm q hq
    · rw [if_neg (by simpa using hd)] at hq
      exact ih _ (addAffected_keys (fun x => weekday x ∉ cal.notWorkedDays) hm hd) q hq

/-- One task's affected_days contribution preserves the weekday key
invariant. -/
lemma affectedDaysOfTask_keys (cal : Calendar) (fuel : Nat) (t : Task)
    {m m' : List (Int × List String)}
    (hm : ∀ q ∈ m, weekday q.1 ∉ cal.notWorkedDays)
    (h : affectedDaysOfTask cal fuel t m = .ok m') :
    ∀ q ∈ m', weekday q.1 ∉ cal.notWorkedDays := by
  unfold affectedDaysOfTask at h
  split at h
  · cases h
    exact spanFoldl_keys cal t.fullname _ m hm
  · cases h

/-- The scan over all of a resource's tasks preserves the weekday key
invariant. -/
lemma foldlM_affected_keys (cal : Calendar) (fuel : Nat) :
    ∀ (tasks : List Task) (m m' : List (Int × List String)),
      (∀ q ∈ m, weekday q.1 ∉ cal.notWorkedDays) →
      tasks.foldlM (fun m t => affectedDaysOfTask cal fuel t m) m = .ok m' →
      ∀ q ∈ m', weekday q.1 ∉ cal.notWorkedDays := by
  intro tasks
  induction tasks with
  | nil =>
    intro m m' hm h
    simp only [List.foldlM_nil] at h
    have hmm := Except.ok.inj h
    subst hmm
    exact hm
  | cons t ts ih =>
    intro m m' hm h
    simp only [List.foldlM_cons] at h
    cases ha : affectedDaysOfTask cal fuel t m with
    | error e => rw [ha] at h; cases h
    | ok m1 =>
      rw [ha] at h
      exact ih m1 m' (affectedDaysOfTask_keys cal fuel t hm ha) h

/-- C5 amended: every date key of the map returned by
Resource.search_for_task_conflicts (for either value of all_tasks) has a
weekday outside the non-working-weekday set.  (The original claim also
demanded that no key is a globally excluded date, which is false: the
per-day filter checks only the weekday - see the counterexample.) -/
theorem C5_amended_keys_working_weekdays (cal : Calendar) (fuel : Nat)
    (tasks : List Task) (all_tasks : Bool) (m : List (Int × List String))
    (h : search_for_task_conflicts cal fuel tasks all_tasks = .ok m) :
    ∀ q ∈ m, weekday q.1 ∉ cal.notWorkedDays := by
  unfold search_for_task_conflicts at h
  cases hf : tasks.foldlM (fun m t => affectedDaysOfTask cal fuel t m) [] with
  | error e =>
    rw [hf] at h
    cases h
  | ok affected =>
    rw [hf] at h
    have hkeys := foldlM_affected_keys cal fuel tasks [] affected (by simp) hf
    cases all_tasks with
    | true =>
      simp only [Bind.bind, Except.bind, if_true] at h
      cases h
      exact hkeys
    | false =>
      simp only [Bind.bind, Except.bind, if_false] at h
      cases h
      intro q hq
      exact hkeys q (List.mem_filter.mp hq).1

/-- Witness for the amended C5 at the concrete counterexample calendar. -/
theorem C5_witness :
    search_for_task_conflicts c5cal 50 [c5task] true =
      .ok [(0, ["T1"]), (1, ["T1"]), (2, ["T1"]), (3, ["T1"])] ∧
    ∀ q ∈ [((0:Int), ["T1"]), (1, ["T1"]), (2, ["T1"]), (3, ["T1"])],
      weekday q.1 ∉ c5cal.notWorkedDays :=
  ⟨rfl, C5_amended_keys_working_weekdays c5cal 50 [c5task] true _ rfl⟩

/-- A successful advance lands on a working day at or after the origin. -/
lemma advanceOverNonWorking_some (cal : Calendar) (t : Task) :
    ∀ (fuel : Nat) (d r : Int), advanceOverNonWorking cal t fuel d = some r →
      t.non_working_day cal r = false ∧ d ≤ r := by
  intro fuel
  induction fuel with
  | zero => intro d r h; simp [advanceOverNonWorking] at h
  | succ n ih =>
    intro d r h
    rw [advanceOverNonWorking] at h
    by_cases hnw : t.non_working_day cal d = true
    · rw [if_pos hnw] at h
      obtain ⟨h1, h2⟩ := ih (d + 1) r h
      exact ⟨h1, by omega⟩
    · rw [if_neg hnw] at h
      cases h
      exact ⟨by simpa using hnw, le_refl d⟩

/-- Peeling the last day off a working-day count. -/
lemma workCount_succ (cal : Calendar) (t : Task) (s0 : Int) (k : Nat) :
    workCount cal t s0 (k + 1) =
      workCount cal t s0 k + (if t.non_working_day cal (s0 + k) = false then 1 else 0) := by
  unfold workCount
  rw [List.range_succ, List.filter_append, List.length_append]
  by_cases h : t.non_working_day cal (s0 + k) = false <;> simp [h]

/-- Invariant of the forward duration loop: a successful walk that started
with a positive remaining duration ends on a working day, and the working
days strictly before the final day together with the final day itself
number exactly the initial duration. -/
lemma forwardWalk_count (cal : Calendar) (t : Task) (s0 : Int) :
    ∀ (fuel real : Nat) (dur : Int) (r : Nat), 1 ≤ dur →
      forwardWalk cal t s0 fuel real dur = some r →
      real ≤ r ∧ t.non_working_day cal (s0 + r) = false ∧
        workCount cal t s0 r + 1 = workCount cal t s0 real + dur.toNat := by
  intro fuel
  induction fuel with
  | zero => intro real dur r h1 h2; simp [forwardWalk] at h2
  | succ n ih =>
    intro real dur r h1 h2
    rw [forwardWalk] at h2
    by_cases hnw : t.non_working_day cal (s0 + real) = true
    · rw [if_pos (by simp [hnw]), if_pos hnw] at h2
      obtain ⟨ha, hb, hc⟩ := ih (real + 1) dur r h1 h2
      refine ⟨by omega, hb, ?_⟩
      rw [hc, workCount_succ, if_neg (by simp [hnw])]
      omega
    · by_cases hd : dur > 1
      · rw [if_pos (by simp [hd]), if_neg hnw] at h2
        obtain ⟨ha, hb, hc⟩ := ih (real + 1) (dur - 1) r (by omega) h2
        refine ⟨by omega, hb, ?_⟩
        rw [hc, workCount_succ, if_pos (by simpa using hnw)]
        omega
      · rw [if_neg (by simp [hnw, hd]), Option.some_inj] at h2
        subst h2
        refine ⟨le_refl _, by simpa using hnw, ?_⟩
        have hda : dur = 1 := by omega
        subst hda
        simp

/-- When the task does not have exactly one assigned resource, its
non_working_day coincides with the calendar-only test. -/
lemma non_working_day_eq_cal (cal : Calendar) (t : Task)
    (h : ∀ r, t.resources ≠ some [r]) :
    ∀ day, t.non_working_day cal day = cal.isNonWorking day := by
  intro day
  unfold Task.non_working_day Calendar.isNonWorking
  cases hres : t.resources with
  | none => rfl
  | some l =>
    cases l with
    | nil => rfl
    | cons a tl =>
      cases tl with
      | nil => exact absurd hres (h a)
      | cons b tl2 => rfl

/-- C1 amended: for every Task (not Milestone) with start set, duration at
least 1, no stop, no dependencies, and not exactly one assigned resource,
the number of working days (neither non-working weekdays nor globally
excluded dates) in [start_date(), end_date()] equals the duration.  The
original claim without the duration and resource restrictions is refuted
by C1_counterexample. -/
theorem C1_amended_duration_working_days (cal : Calendar) (fuel : Nat)
    (t : Task) (d s e : Int)
    (hm : t.isMilestone = false)
    (hdur : t.duration = some d) (hd : 1 ≤ d)
    (hstop : t.stop = none) (hdep : t.dependsOn = none)
    (hres : ∀ r, t.resources ≠ some [r])
    (hs : compute_start_date cal fuel t = .ok (some s))
    (he : compute_end_date cal fuel t = .ok (some e)) :
    s ≤ e ∧ (countWorkingDays cal s e : Int) = d := by
  have hstart : ∃ st, t.start = some st := by
    cases hst : t.start with
    | some st => exact ⟨st, rfl⟩
    | none =>
      simp only [compute_start_date, hst, hdur, hdep, hstop] at hs
      simp at hs
  obtain ⟨st, hst⟩ := hstart
  simp only [compute_start_date, hst, hdep] at hs
  have hadv : advanceOverNonWorking cal t fuel st = some s := by
    cases ha : advanceOverNonWorking cal t fuel st with
    | none => rw [ha] at hs; simp at hs
    | some v => rw [ha] at hs; simp at hs; rw [hs]
  have hsw : t.non_working_day cal s = false :=
    (advanceOverNonWorking_some cal t fuel st s hadv).1
  simp only [compute_end_date, hm, Bool.false_eq_true, if_false, hstop, hdur,
    compute_start_date, hst, hdep, hadv] at he
  have hwalk : ∃ real : Nat, forwardWalk cal t s fuel 0 d = some real ∧ e = s + real := by
    cases hw : forwardWalk cal t s fuel 0 d with
    | none => rw [hw] at he; simp at he
    | some real =>
      rw [hw] at he
      simp at he
      exact ⟨real, rfl, he.symm⟩
  obtain ⟨real, hw, hereal⟩ := hwalk
  obtain ⟨-, hlast, hcount⟩ := forwardWalk_count cal t s fuel 0 d real hd hw
  subst hereal
  constructor
  · omega
  · have hspan : ((s + (real : Int)) - s).toNat + 1 = real + 1 := by omega
    have hfil :
        (List.range (real + 1)).filter (fun i : Nat => !cal.isNonWorking (s + (i : Int))) =
        (List.range (real + 1)).filter (fun i : Nat => !(t.non_working_day cal (s + (i : Int)))) := by
      apply List.filter_congr
      intro i _
      rw [non_working_day_eq_cal cal t hres]
    have hc1 : countWorkingDays cal s (s + (real : Int)) = workCount cal t s (real + 1) := by
      unfold countWorkingDays workCount
      rw [hspan, hfil]
    rw [hc1, workCount_succ, if_pos hlast]
    have h0 : workCount cal t s 0 = 0 := by simp [workCount]
    rw [h0] at hcount
    omega

/-- Witness for the amended C1: the scenario task resolves to
start_date() = 2024-01-01 and end_date() = 2024-01-05 and the span holds
exactly 5 working days. -/
theorem C1_witness :
    compute_start_date defaultCal 30 c1task = .ok (some date20240101) ∧
    compute_end_date defaultCal 30 c1task = .ok (some date20240105) ∧
    (0 : Int) ≤ 4 ∧ (countWorkingDays defaultCal 0 4 : Int) = 5 :=
  ⟨rfl, rfl,
    (C1_amended_duration_working_days defaultCal 30 c1task 5 0 4 rfl rfl (by norm_num)
      rfl rfl (fun r => by simp [c1task]) rfl rfl).1,
    (C1_amended_duration_working_days defaultCal 30 c1task 5 0 4 rfl rfl (by norm_num)
      rfl rfl (fun r => by simp [c1task]) rfl rfl).2⟩

/-- A successful Python comparison date1 > date2 has dates on both sides. -/
lemma pyGt_ok {a b : Option Int} {v : Bool} (h : pyGt a b = .ok v) :
    ∃ x y, a = some x ∧ b = some y ∧ v = decide (x > y) := by
  cases a with
  | none => simp [pyGt] at h
  | some x =>
    cases b with
    | none => simp [pyGt] at h
    | some y =>
      simp [pyGt] at h
      exact ⟨x, y, rfl, rfl, h.symm⟩

/-- Bound for the start-set dependency scan over Task-only dependencies:
the resulting bound is at least the advanced start and strictly above every
dependency end. -/
lemma foldDepsStartSet_bound :
    ∀ (deps : List Dep) (prev q : Int),
      (∀ dp ∈ deps, dp.isMilestone = false) →
      foldDepsStartSet deps prev = .ok q →
      prev ≤ q ∧ ∀ dp ∈ deps, ∀ e, dp.endResult = .ok (some e) → e < q := by
  intro deps
  induction deps with
  | nil =>
    intro prev q hall h
    simp only [foldDepsStartSet] at h
    have hpq := Except.ok.inj h
    subst hpq
    exact ⟨le_refl _, by simp⟩
  | cons d rest ih =>
    intro prev q hall h
    have hdm : d.isMilestone = false := hall d (by simp)
    simp only [foldDepsStartSet] at h
    cases hde : d.endResult with
    | error e0 => simp only [hde] at h; cases h
    | ok eo =>
      cases eo with
      | none => simp only [hde] at h; cases h
      | some ev =>
        simp only [hde] at h
        simp only [hdm, Bool.false_eq_true, if_false] at h
        have hrest : ∀ dp ∈ rest, dp.isMilestone = false :=
          fun dp hdp => hall dp (by simp [hdp])
        by_cases hge : ev ≥ prev
        · rw [if_pos hge] at h
          obtain ⟨h1, h2⟩ := ih (ev + 1) q hrest h
          refine ⟨by omega, ?_⟩
          intro dp hdp e0 he0
          rcases List.mem_cons.mp hdp with rfl | hdp'
          · rw [hde] at he0
            have h4 := Option.some.inj (Except.ok.inj he0)
            omega
          · exact h2 dp hdp' e0 he0
        · rw [if_neg hge] at h
          obtain ⟨h1, h2⟩ := ih prev q hrest h
          refine ⟨h1, ?_⟩
          intro dp hdp e0 he0
          rcases List.mem_cons.mp hdp with rfl | hdp'
          · rw [hde] at he0
            have h4 := Option.some.inj (Except.ok.inj he0)
            omega
          · exact h2 dp hdp' e0 he0

/-- Bound for the duration-plus-dependencies scan over Task-only
dependencies: the resulting bound dominates the accumulator and every
dependency end. -/
lemma foldDepsDurationDeps_bound :
    ∀ (deps : List Dep) (prev : Option Int) (q : Int),
      (∀ dp ∈ deps, dp.isMilestone = false) →
      foldDepsDurationDeps deps prev = .ok (some q) →
      (∀ pv, prev = some pv → pv ≤ q) ∧
      (∀ dp ∈ deps, ∀ e, dp.endResult = .ok (some e) → e ≤ q) := by
  intro deps
  induction deps with
  | nil =>
    intro prev q hall h
    simp only [foldDepsDurationDeps] at h
    have hpq := Except.ok.inj h
    subst hpq
    exact ⟨fun pv hpv => by rw [Option.some.inj hpv], by simp⟩
  | cons d rest ih =>
    intro prev q hall h
    have hdm : d.isMilestone = false := hall d (by simp)
    have hrest : ∀ dp ∈ rest, dp.isMilestone = false :=
      fun dp hdp => hall dp (by simp [hdp])
    simp only [foldDepsDurationDeps] at h
    cases hde : d.endResult with
    | error e0 => simp only [hde] at h; cases h
    | ok eo =>
      simp only [hde] at h
      cases hprev : prev with
      | none =>
        simp only [hprev] at h
        simp only [hdm, Bool.false_eq_true, if_false] at h
        obtain ⟨h1, h2⟩ := ih eo q hrest h
        refine ⟨by simp, ?_⟩
        intro dp hdp e0 he0
        rcases List.mem_cons.mp hdp with rfl | hdp'
        · rw [hde] at he0
          have h4 := Except.ok.inj he0
          exact le_of_eq_of_le rfl (h1 e0 (by rw [← h4]))
        · exact h2 dp hdp' e0 he0
      | some pv =>
        simp only [hprev] at h
        cases heo : eo with
        | none => simp only [heo] at h; cases h
        | some ev =>
          simp only [heo] at h
          by_cases hgt : ev > pv
          · rw [if_pos hgt] at h
            simp only [hdm, Bool.false_eq_true, if_false] at h
            obtain ⟨h1, h2⟩ := ih (some ev) q hrest h
            have hev : ev ≤ q := h1 ev rfl
            refine ⟨fun pv' hpv' => by
              have := Option.some.inj hpv'
              omega, ?_⟩
            intro dp hdp e0 he0
            rcases List.mem_cons.mp hdp with rfl | hdp'
            · rw [hde, heo] at he0
              have h4 := Option.some.inj (Except.ok.inj he0)
              omega
            · exact h2 dp hdp' e0 he0
          · rw [if_neg hgt] at h
            obtain ⟨h1, h2⟩ := ih (some pv) q hrest h
            have hpvq : pv ≤ q := h1 pv rfl
            refine ⟨fun pv' hpv' => by
              have := Option.some.inj hpv'
              omega, ?_⟩
            intro dp hdp e0 he0
            rcases List.mem_cons.mp hdp with rfl | hdp'
            · rw [hde, heo] at he0
              have h4 := Option.some.inj (Except.ok.inj he0)
              omega
            · exact h2 dp hdp' e0 he0

/-- Bound for the stop-fixed dependency scan: the resulting bound dominates
the accumulator and every dependency end. -/
lemma foldDepsStopFixed_bound :
    ∀ (deps : List Dep) (prev : Option Int) (q : Int),
      foldDepsStopFixed deps prev = .ok (some q) →
      (∀ pv, prev = some pv → pv ≤ q) ∧
      (∀ dp ∈ deps, ∀ e, dp.endResult = .ok (some e) → e ≤ q) := by
  intro deps
  induction deps with
  | nil =>
    intro prev q h
    simp only [foldDepsStopFixed] at h
    have hpq := Except.ok.inj h
    subst hpq
    exact ⟨fun pv hpv => by rw [Option.some.inj hpv], by simp⟩
  | cons d rest ih =>
    intro prev q h
    simp only [foldDepsStopFixed] at h
    cases hde : d.endResult with
    | error e0 => simp only [hde] at h; cases h
    | ok eo =>
      simp only [hde] at h
      cases hg : pyGt eo prev with
      | error e0 => simp only [hg] at h; cases h
      | ok b =>
        obtain ⟨ev, pv, heo, hpv, hb⟩ := pyGt_ok hg
        subst heo hpv
        cases b with
        | true =>
          simp only [hg] at h
          obtain ⟨h1, h2⟩ := ih (some ev) q h
          have hev : ev ≤ q := h1 ev rfl
          have hgtv : ev > pv := by
            have := hb.symm
            simpa using this
          refine ⟨fun pv' hpv' => by
            have := Option.some.inj hpv'
            omega, ?_⟩
          intro dp hdp e0 he0
          rcases List.mem_cons.mp hdp with rfl | hdp'
          · rw [hde] at he0
            have h4 := Option.some.inj (Except.ok.inj he0)
            omega
          · exact h2 dp hdp' e0 he0
        | false =>
          simp only [hg] at h
          obtain ⟨h1, h2⟩ := ih (some pv) q h
          have hpvq : pv ≤ q := h1 pv rfl
          have hlev : ev ≤ pv := by
            have hb' := hb.symm
            rw [decide_eq_false_iff_not] at hb'
            omega
          refine ⟨fun pv' hpv' => by
            have := Option.some.inj hpv'
            omega, ?_⟩
          intro dp hdp e0 he0
          rcases List.mem_cons.mp hdp with rfl | hdp'
          · rw [hde] at he0
            have h4 := Option.some.inj (Except.ok.inj he0)
            omega
          · exact h2 dp hdp' e0 he0

end PyPlanning

namespace PyPlanning

/-- C2 amended: for a Task A whose dependency list holds only Tasks, with
start_date(A) resolved and end_date(B) resolved for a dependency B,
end_date(B) <= start_date(A) always holds, and the inequality is strict in
every input configuration except stop-plus-duration (start unset, stop
set): there the back-computed start may exactly equal the latest dependency
end, as C2_counterexample shows, so only the weak inequality holds. -/
theorem C2_amended_dependency_bound (cal : Calendar) (fuel : Nat) (t : Task)
    (deps : List Dep) (B : Dep) (s e : Int)
    (hdeps : t.dependsOn = some (.list deps))
    (hall : ∀ dp ∈ deps, dp.isMilestone = false)
    (hB : B ∈ deps)
    (hs : compute_start_date cal fuel t = .ok (some s))
    (hE : B.endResult = .ok (some e)) :
    e ≤ s ∧ ((t.start ≠ none ∨ t.stop = none) → e < s) := by
  cases hst : t.start with
  | some st =>
    -- case "start set, has dependencies"
    simp only [compute_start_date, hst, hdeps] at hs
    cases ha1 : advanceOverNonWorking cal t fuel st with
    | none => simp only [ha1] at hs; cases hs
    | some s1 =>
      simp only [ha1] at hs
      cases hf : foldDepsStartSet deps s1 with
      | error e0 => simp only [hf] at hs; cases hs
      | ok prev =>
        simp only [hf] at hs
        cases ha2 : advanceOverNonWorking cal t fuel prev with
        | none => simp only [ha2] at hs; cases hs
        | some p =>
          simp only [ha2] at hs
          have hp : p = s := Option.some.inj (Except.ok.inj hs)
          have hb := (foldDepsStartSet_bound deps s1 prev hall hf).2 B hB e hE
          have hadv := (advanceOverNonWorking_some cal t fuel prev p ha2).2
          exact ⟨by omega, fun _ => by omega⟩
  | none =>
    cases hdu : t.duration with
    | none =>
      simp only [compute_start_date, hst, hdu, hdeps] at hs
      cases hs
    | some dur =>
      cases hstp : t.stop with
      | none =>
        -- case "duration and dependencies fixed"
        simp only [compute_start_date, hst, hdu, hdeps, hstp] at hs
        cases hf : foldDepsDurationDeps deps none with
        | error e0 => simp only [hf] at hs; cases hs
        | ok po =>
          cases po with
          | none => simp only [hf] at hs; cases hs
          | some p =>
            simp only [hf] at hs
            cases ha : advanceOverNonWorking cal t fuel (p + 1) with
            | none => simp only [ha] at hs; cases hs
            | some v =>
              simp only [ha] at hs
              have hv : v = s := Option.some.inj (Except.ok.inj hs)
              have hb := (foldDepsDurationDeps_bound deps none p hall hf).2 B hB e hE
              have hadv := (advanceOverNonWorking_some cal t fuel (p + 1) v ha).2
              exact ⟨by omega, fun _ => by omega⟩
      | some stp =>
        -- case "stop and duration fixed"
        simp only [compute_start_date, hst, hdu, hdeps, hstp] at hs
        cases hbw : backWalk cal t stp fuel 0 dur with
        | none => simp only [hbw] at hs; cases hs
        | some real =>
          simp only [hbw] at hs
          cases deps with
          | nil => exact absurd hB (List.not_mem_nil B)
          | cons d0 rest =>
            cases hd0 : d0.endResult with
            | error e0 => simp only [hd0] at hs; cases hs
            | ok prev0 =>
              simp only [hd0] at hs
              cases hf : foldDepsStopFixed (d0 :: rest) prev0 with
              | error e0 => simp only [hf] at hs; cases hs
              | ok pvo =>
                cases pvo with
                | none => simp only [hf] at hs; cases hs
                | some pv =>
                  simp only [hf] at hs
                  cases ha : advanceOverNonWorking cal t fuel
                      (if pv > stp - ((real : Int) - 1) then pv + 1
                       else stp - ((real : Int) - 1)) with
                  | none => simp only [ha] at hs; cases hs
                  | some v =>
                    simp only [ha] at hs
                    have hv : v = s := Option.some.inj (Except.ok.inj hs)
                    have hb := (foldDepsStopFixed_bound (d0 :: rest) prev0 pv hf).2 B hB e hE
                    have hadv := (advanceOverNonWorking_some cal t fuel _ v ha).2
                    constructor
                    · by_cases hgt : pv > stp - ((real : Int) - 1)
                      · rw [if_pos hgt] at hadv
                        omega
                      · rw [if_neg hgt] at hadv
                        omega
                    · intro hcond
                      rcases hcond with hc | hc
                      · exact absurd rfl hc
                      · cases hc

/-- Witness for the amended C2: the start-set configuration resolves to
2024-01-04, strictly after the dependency end 2024-01-01. -/
theorem C2_witness :
    compute_start_date defaultCal 20 c2taskW = .ok (some 3) ∧
    (0 : Int) ≤ 3 ∧ ((c2taskW.start ≠ none ∨ c2taskW.stop = none) → (0 : Int) < 3) :=
  ⟨rfl,
    (C2_amended_dependency_bound defaultCal 20 c2taskW [c2depW] c2depW 3 0 rfl
      (fun dp hdp => by rw [List.mem_singleton] at hdp; rw [hdp]; rfl)
      (List.mem_singleton.mpr rfl) rfl rfl).1,
    (C2_amended_dependency_bound defaultCal 20 c2taskW [c2depW] c2depW 3 0 rfl
      (fun dp hdp => by rw [List.mem_singleton] at hdp; rw [hdp]; rfl)
      (List.mem_singleton.mpr rfl) rfl rfl).2⟩

end PyPlanning

